import Mathlib

/-!
Shallow embedding of `src/fifo.py`: a discrete-event simulation of a small
packet-switched network.  Traffic nodes generate packets and hand them to one
of two bounded FIFO switches; a full switch drops the packet and counts it; a
monitor process periodically samples queue lengths and cumulative drop
counters.  Randomness (packet sizes, inter-event delays, routing choices) and
the simpy clock are modelled as oracle parameters: every random draw and every
`env.now` reading becomes an explicit argument, so a run of the program is a
list of events carrying those values.  Simulated time is modelled as `ℚ`
(simpy uses floats, but `env.now` is only ever read, compared and subtracted,
never rounded in a float-specific way; `int(env.now)` is truncation, which
equals `Rat.floor` since `env.now ≥ 0` in every run).  Drawing calls
(`draw_packet`, `draw_network`, `pygame`, `matplotlib`) have no effect on the
simulation state and are omitted.
-/

namespace Fifo

/-- RGB constant `PACKET_COLOR = (0, 0, 0)` from the source. -/
def PACKET_COLOR : Nat × Nat × Nat := (0, 0, 0)

/-- RGB constant `DROPPED_PACKET_COLOR = (255, 0, 0)` from the source. -/
def DROPPED_PACKET_COLOR : Nat × Nat × Nat := (255, 0, 0)

/-- `Packet.__init__`: the packet record.  `from_node` (a screen position used
only for drawing) is omitted; `to_switch` is kept as the chosen switch's
identifier. -/
structure Packet where
  packet_id : String
  size : Nat
  arrival_time : ℚ
  to_switch : Nat
  color : Nat × Nat × Nat
deriving DecidableEq

/-- `Node.generate_packet`: builds
`Packet(f"Node{node_id}_Packet{int(env.now)}", randint(100,1200), env.now, pos,
random.choice(switches))`.  The random size and the random switch choice are
oracle arguments; `int(env.now)` is `Rat.floor now` (times are nonnegative, so
Python truncation coincides with floor). -/
def generate_packet (node_id : Nat) (now : ℚ) (size : Nat) (chosen_switch : Nat) : Packet :=
  { packet_id := "Node" ++ toString node_id ++ "_Packet" ++ toString (Rat.floor now)
    size := size
    arrival_time := now
    to_switch := chosen_switch
    color := PACKET_COLOR }

/-- Outcome of one `enqueue_packet` call: which branch of the `if` ran.  The
Python method returns `None`; the outcome is observable through the branch
effects (append vs. recolour-and-count), which this value reifies. -/
inductive AdmissionResult where
  | accepted
  | dropped
deriving DecidableEq

/-- `Switch.__init__`: identifier, `max_queue_size`, `queue = []`,
`dropped_packets = 0`.  The `env`, `action` and `position` fields (scheduling
plumbing and drawing coordinates) carry no queue/drop state and are omitted. -/
structure Switch where
  switch_id : Nat
  max_queue_size : Nat
  queue : List Packet
  dropped_packets : Nat
deriving DecidableEq

/-- The state `Switch.__init__` establishes: empty queue, zero drop counter.
The constructor performs no validation of `max_queue_size`. -/
def Switch.init (switch_id max_queue_size : Nat) : Switch :=
  { switch_id := switch_id
    max_queue_size := max_queue_size
    queue := []
    dropped_packets := 0 }

/-- `Switch.enqueue_packet`: if `len(queue) < max_queue_size`, append the
packet to the queue tail; else recolour the packet `DROPPED_PACKET_COLOR` and
increment `dropped_packets`.  Returns the new switch state, the (possibly
recoloured) packet, and which branch ran. -/
def enqueue_packet (s : Switch) (p : Packet) : Switch × Packet × AdmissionResult :=
  if s.queue.length < s.max_queue_size then
    ({ s with queue := s.queue ++ [p] }, p, AdmissionResult.accepted)
  else
    ({ s with dropped_packets := s.dropped_packets + 1 },
     { p with color := DROPPED_PACKET_COLOR }, AdmissionResult.dropped)

/-- `Switch.process_packet`: `if self.queue: return self.queue.pop(0); return
None` — pop and return the head when nonempty, else `None`. -/
def process_packet (s : Switch) : Switch × Option Packet :=
  match s.queue with
  | [] => (s, none)
  | p :: rest => ({ s with queue := rest }, some p)

/-- One call against a single switch: an admission (`enqueue_packet p`) or a
service (`process_packet`). -/
inductive Op where
  | enq (p : Packet)
  | proc
deriving DecidableEq

/-- State effect of one call on a switch. -/
def stepOp (s : Switch) : Op → Switch
  | Op.enq p => (enqueue_packet s p).1
  | Op.proc => (process_packet s).1

/-- Run a finite sequence of calls against a switch. -/
def runOps (s : Switch) (ops : List Op) : Switch :=
  ops.foldl stepOp s

/-- Admit a list of packets back-to-back (no intervening service calls). -/
def enqueueAll (s : Switch) (ps : List Packet) : Switch :=
  ps.foldl (fun t p => (enqueue_packet t p).1) s

/-- `n` consecutive `process_packet` calls, collecting each returned value. -/
def processN : Switch → Nat → Switch × List (Option Packet)
  | s, 0 => (s, [])
  | s, n + 1 =>
    let r := process_packet s
    let rest := processN r.1 n
    (rest.1, r.2 :: rest.2)

/-- The `metrics` dictionary built in `simulate_traffic` and appended to by
`monitor`: its exact five keys, nothing else. -/
structure Metrics where
  time_steps : List ℚ
  queue_length_sw1 : List Nat
  queue_length_sw2 : List Nat
  dropped_packets_sw1 : List Nat
  dropped_packets_sw2 : List Nat
deriving DecidableEq

/-- The empty `metrics` dictionary from `simulate_traffic`. -/
def Metrics.init : Metrics := ⟨[], [], [], [], []⟩

/-- One iteration of `monitor`: append `env.now`, both queue lengths and both
cumulative drop counters to the respective series. -/
def monitorStep (now : ℚ) (sw1 sw2 : Switch) (m : Metrics) : Metrics :=
  { time_steps := m.time_steps ++ [now]
    queue_length_sw1 := m.queue_length_sw1 ++ [sw1.queue.length]
    queue_length_sw2 := m.queue_length_sw2 ++ [sw2.queue.length]
    dropped_packets_sw1 := m.dropped_packets_sw1 ++ [sw1.dropped_packets]
    dropped_packets_sw2 := m.dropped_packets_sw2 ++ [sw2.dropped_packets] }

/-- The end-to-end latency samples stored in the metrics.  The source stores
none: `monitor` appends only times, queue lengths and cumulative drop
counters, and no other code writes to `metrics`, so the collection of
recorded latency samples is empty for every metrics value the program can
produce. -/
def Metrics.latencySamples (_ : Metrics) : List ℚ := []

/-- Global simulation state of `simulate_traffic`: the two switches
(`max_queue_size=10` each), the metrics, plus two ghost counters used to state
conservation — how many packets the nodes have generated and how many
services returned a packet. -/
structure Sim where
  sw1 : Switch
  sw2 : Switch
  generated : Nat
  delivered : Nat
  metrics : Metrics
deriving DecidableEq

/-- Initial state of `simulate_traffic`: `Switch(env, 1, 10)`,
`Switch(env, 2, 10)`, empty metrics, nothing generated or delivered. -/
def Sim.init : Sim := ⟨Switch.init 1 10, Switch.init 2 10, 0, 0, Metrics.init⟩

/-- One scheduler event of the simulation, with the oracle values it consumes:
a node's generation event (`Node.run` body: generate a packet and enqueue it
at the randomly chosen switch, `toFirst` picking `switch1` or `switch2`), a
service event of either switch (`Switch.run` body at time `now`), or a
`monitor` sampling event at time `now`. -/
inductive SimEv where
  | gen (node_id : Nat) (now : ℚ) (size : Nat) (toFirst : Bool)
  | serve1 (now : ℚ)
  | serve2 (now : ℚ)
  | sample (now : ℚ)
deriving DecidableEq

/-- Effect of one scheduler event.  A generation event builds the packet and
calls `enqueue_packet` on the chosen switch; a service event runs the
`Switch.run` body (`if self.queue: packet = self.process_packet()`), counting
a delivery when a packet comes back; a sample event runs one `monitor`
iteration. -/
def simStep (st : Sim) : SimEv → Sim
  | SimEv.gen node_id now size toFirst =>
    match toFirst with
    | true =>
      { st with sw1 := (enqueue_packet st.sw1 (generate_packet node_id now size 1)).1,
                generated := st.generated + 1 }
    | false =>
      { st with sw2 := (enqueue_packet st.sw2 (generate_packet node_id now size 2)).1,
                generated := st.generated + 1 }
  | SimEv.serve1 _ =>
    match process_packet st.sw1 with
    | (s, some _) => { st with sw1 := s, delivered := st.delivered + 1 }
    | (s, none) => { st with sw1 := s }
  | SimEv.serve2 _ =>
    match process_packet st.sw2 with
    | (s, some _) => { st with sw2 := s, delivered := st.delivered + 1 }
    | (s, none) => { st with sw2 := s }
  | SimEv.sample now => { st with metrics := monitorStep now st.sw1 st.sw2 st.metrics }

/-- A finite run of the simulation: fold the events from the initial state. -/
def runSim (evs : List SimEv) : Sim := evs.foldl simStep Sim.init

/-- Latency samples the spec prescribes for a run, threading the simulation
state.  Modelled from the spec: "when a packet reaches a designated terminal
switch (the last hop in its path) and is serviced there, the observer computes
`service_time - packet.creation_time` and records it as a latency sample" —
in this single-hop topology every switch is the packet's terminal hop, so each
service event that returns a packet contributes `now - arrival_time`.  The
source contains no such recording; this definition exists to compare the
spec's words with the code's metrics. -/
def specLatencyAux : Sim → List SimEv → List ℚ
  | _, [] => []
  | st, ev :: rest =>
    match ev with
    | SimEv.serve1 now =>
      match (process_packet st.sw1).2 with
      | some p => (now - p.arrival_time) :: specLatencyAux (simStep st ev) rest
      | none => specLatencyAux (simStep st ev) rest
    | SimEv.serve2 now =>
      match (process_packet st.sw2).2 with
      | some p => (now - p.arrival_time) :: specLatencyAux (simStep st ev) rest
      | none => specLatencyAux (simStep st ev) rest
    | _ => specLatencyAux (simStep st ev) rest

/-- Latency samples the spec prescribes for a run from the initial state. -/
def specLatencySamples (evs : List SimEv) : List ℚ := specLatencyAux Sim.init evs

/-- Construction outcome of `Switch.__init__`, with the error channel the
spec's configuration-validation contract would use.  Faithful to the source:
`__init__` contains no validation and no raise, so construction always
succeeds. -/
def Switch.tryInit (switch_id max_queue_size : Nat) : Except String Switch :=
  Except.ok (Switch.init switch_id max_queue_size)

/-- Modelled from the spec: "configuration errors (e.g. non-positive capacity
...) must be rejected at construction time with a descriptive
`InvalidConfiguration` failure before the scheduler starts".  A checked
constructor rejecting non-positive (here: zero) capacity, for comparison with
`Switch.tryInit`. -/
def Switch.tryInitChecked (switch_id max_queue_size : Nat) : Except String Switch :=
  if max_queue_size = 0 then
    Except.error "InvalidConfiguration: non-positive capacity"
  else
    Except.ok (Switch.init switch_id max_queue_size)

/-- Concrete packets for witnesses and counterexamples. -/
def samplePacket (n : Nat) : Packet :=
  { packet_id := "Node1_Packet" ++ toString n
    size := 100 + n
    arrival_time := (n : ℚ)
    to_switch := 1
    color := PACKET_COLOR }

/-! ### Helper lemmas -/

lemma process_packet_eq (s : Switch) :
    process_packet s = ({ s with queue := s.queue.tail }, s.queue.head?) := by
  obtain ⟨i, c, q, d⟩ := s
  cases q <;> rfl

lemma runOps_nil (s : Switch) : runOps s [] = s := rfl

lemma runOps_cons (s : Switch) (op : Op) (ops : List Op) :
    runOps s (op :: ops) = runOps (stepOp s op) ops := rfl

lemma runOps_append (s : Switch) (l1 l2 : List Op) :
    runOps s (l1 ++ l2) = runOps (runOps s l1) l2 := by
  unfold runOps
  rw [List.foldl_append]

lemma stepOp_max_queue_size (s : Switch) (op : Op) :
    (stepOp s op).max_queue_size = s.max_queue_size := by
  cases op with
  | enq p =>
    dsimp only [stepOp, enqueue_packet]
    split <;> rfl
  | proc =>
    rw [stepOp, process_packet_eq]

lemma stepOp_length_le (s : Switch) (op : Op)
    (h : s.queue.length ≤ s.max_queue_size) :
    (stepOp s op).queue.length ≤ s.max_queue_size := by
  cases op with
  | enq p =>
    dsimp only [stepOp, enqueue_packet]
    split
    · next hlt =>
      simp only [List.length_append, List.length_cons, List.length_nil]
      omega
    · exact h
  | proc =>
    rw [stepOp, process_packet_eq]
    have htail : s.queue.tail.length ≤ s.queue.length := by
      rw [List.length_tail]
      omega
    exact le_trans htail h

lemma runOps_invariant (ops : List Op) (s : Switch)
    (h : s.queue.length ≤ s.max_queue_size) :
    (runOps s ops).queue.length ≤ s.max_queue_size
      ∧ (runOps s ops).max_queue_size = s.max_queue_size := by
  induction ops generalizing s with
  | nil => exact ⟨h, rfl⟩
  | cons op rest ih =>
    rw [runOps_cons]
    have hcap := stepOp_max_queue_size s op
    obtain ⟨h1, h2⟩ := ih (stepOp s op) (hcap ▸ stepOp_length_le s op h)
    exact ⟨hcap ▸ h1, h2.trans hcap⟩

lemma stepOp_dropped_le (s : Switch) (op : Op) :
    s.dropped_packets ≤ (stepOp s op).dropped_packets := by
  cases op with
  | enq p =>
    dsimp only [stepOp, enqueue_packet]
    split
    · exact le_refl _
    · exact Nat.le_succ _
  | proc =>
    rw [stepOp, process_packet_eq]

lemma runOps_dropped_le (ops : List Op) (s : Switch) :
    s.dropped_packets ≤ (runOps s ops).dropped_packets := by
  induction ops generalizing s with
  | nil => exact le_refl _
  | cons op rest ih =>
    rw [runOps_cons]
    exact le_trans (stepOp_dropped_le s op) (ih (stepOp s op))

lemma enqueueAll_nil (s : Switch) : enqueueAll s [] = s := rfl

lemma enqueueAll_cons (s : Switch) (p : Packet) (ps : List Packet) :
    enqueueAll s (p :: ps) = enqueueAll (enqueue_packet s p).1 ps := rfl

lemma enqueueAll_queue (ps : List Packet) (s : Switch)
    (h : s.queue.length + ps.length ≤ s.max_queue_size) :
    (enqueueAll s ps).queue = s.queue ++ ps := by
  induction ps generalizing s with
  | nil => simp [enqueueAll_nil]
  | cons p rest ih =>
    obtain ⟨i, c, q, d⟩ := s
    dsimp only at h ⊢
    have hlt : q.length < c := by
      simp only [List.length_cons] at h
      omega
    rw [enqueueAll_cons]
    have hfst : (enqueue_packet ⟨i, c, q, d⟩ p).1 = ⟨i, c, q ++ [p], d⟩ := by
      simp [enqueue_packet, hlt]
    rw [hfst, ih ⟨i, c, q ++ [p], d⟩ (by
      dsimp only
      simp only [List.length_cons] at h
      simp only [List.length_append, List.length_cons, List.length_nil]
      omega)]
    simp

lemma processN_zero (s : Switch) : processN s 0 = (s, []) := rfl

lemma processN_succ (s : Switch) (n : Nat) :
    processN s (n + 1) =
      ((processN (process_packet s).1 n).1,
       (process_packet s).2 :: (processN (process_packet s).1 n).2) := rfl

lemma processN_outputs (n : Nat) (s : Switch) (h : n ≤ s.queue.length) :
    (processN s n).2 = (s.queue.take n).map some := by
  induction n generalizing s with
  | zero => simp [processN_zero]
  | succ k ih =>
    obtain ⟨i, c, q, d⟩ := s
    cases q with
    | nil => simp at h
    | cons a t =>
      rw [processN_succ]
      simp only [process_packet]
      rw [ih]
      · simp
      · show k ≤ t.length
        simp only [List.length_cons] at h
        omega

lemma ratFloor_eq_intFloor (q : ℚ) : Rat.floor q = ⌊q⌋ := by
  rw [Rat.floor_def', Rat.floor_def]

lemma generate_packet_id (node_id : Nat) (now : ℚ) (size chosen : Nat) :
    (generate_packet node_id now size chosen).packet_id =
      "Node" ++ toString node_id ++ "_Packet" ++ toString (Rat.floor now) := rfl

/-- Conservation quantity of a simulation state: every generated packet is
either delivered, dropped at one of the two switches, or still queued. -/
def Sim.balanced (st : Sim) : Prop :=
  st.generated =
    st.delivered + (st.sw1.dropped_packets + st.sw2.dropped_packets)
      + (st.sw1.queue.length + st.sw2.queue.length)

lemma enqueue_packet_counts (s : Switch) (p : Packet) :
    (enqueue_packet s p).1.queue.length + (enqueue_packet s p).1.dropped_packets
      = s.queue.length + s.dropped_packets + 1 := by
  dsimp only [enqueue_packet]
  split <;> simp <;> omega

lemma simStep_balanced (st : Sim) (ev : SimEv) (h : st.balanced) :
    (simStep st ev).balanced := by
  obtain ⟨⟨i1, c1, q1, d1⟩, ⟨i2, c2, q2, d2⟩, g, del, m⟩ := st
  simp only [Sim.balanced] at h ⊢
  cases ev with
  | gen node_id now size toFirst =>
    cases toFirst with
    | true =>
      have hc := enqueue_packet_counts ⟨i1, c1, q1, d1⟩ (generate_packet node_id now size 1)
      dsimp only at hc
      dsimp only [simStep]
      omega
    | false =>
      have hc := enqueue_packet_counts ⟨i2, c2, q2, d2⟩ (generate_packet node_id now size 2)
      dsimp only at hc
      dsimp only [simStep]
      omega
  | serve1 now =>
    cases q1 with
    | nil =>
      dsimp only [simStep, process_packet] at h ⊢
      omega
    | cons a t =>
      dsimp only [simStep, process_packet] at h ⊢
      simp only [List.length_cons] at h
      omega
  | serve2 now =>
    cases q2 with
    | nil =>
      dsimp only [simStep, process_packet] at h ⊢
      omega
    | cons a t =>
      dsimp only [simStep, process_packet] at h ⊢
      simp only [List.length_cons] at h
      omega
  | sample now =>
    dsimp only [simStep]
    exact h

lemma foldl_simStep_balanced (evs : List SimEv) (st : Sim) (h : st.balanced) :
    (evs.foldl simStep st).balanced := by
  induction evs generalizing st with
  | nil => exact h
  | cons ev rest ih => exact ih (simStep st ev) (simStep_balanced st ev h)

lemma runSim_snoc (evs : List SimEv) (ev : SimEv) :
    runSim (evs ++ [ev]) = simStep (runSim evs) ev := by
  unfold runSim
  rw [List.foldl_append]
  rfl

/-! ### Claim theorems -/

/-- C1: for every switch created with capacity `max_queue_size` and every
finite sequence of `enqueue_packet` / `process_packet` calls starting from the
empty queue, the occupancy `len(queue)` is at most `max_queue_size` after
every call, i.e. after every prefix of the call sequence. -/
theorem capacity_invariant (switch_id cap : Nat) (ops : List Op) (n : Nat) :
    (runOps (Switch.init switch_id cap) (ops.take n)).queue.length ≤ cap :=
  (runOps_invariant (ops.take n) (Switch.init switch_id cap) (Nat.zero_le cap)).1

/-- C2 (counterexample to the claim as stated): for a switch whose queue is
not empty — here one packet is already queued in a capacity-3 switch — two
further packets are admitted back-to-back and both accepted (2 does not
exceed the remaining free capacity), yet the next two `process_packet` calls
do not return those two packets: the earlier-queued packet comes out first. -/
theorem fifo_order_counterexample :
    (runOps (Switch.init 1 3) [Op.enq (samplePacket 0)]).queue.length + 2 ≤ 3
    ∧ (processN (enqueueAll (runOps (Switch.init 1 3) [Op.enq (samplePacket 0)])
          [samplePacket 1, samplePacket 2]) 2).2
        ≠ [some (samplePacket 1), some (samplePacket 2)] := by
  decide

/-- C2 (amended): starting from a switch with an empty queue, if N packets are
admitted back-to-back with no intervening service calls and all N are accepted
(N at most the capacity), then N consecutive `process_packet` calls return
exactly those packets in admission order. -/
theorem fifo_order (switch_id cap : Nat) (ps : List Packet) (h : ps.length ≤ cap) :
    (processN (enqueueAll (Switch.init switch_id cap) ps) ps.length).2
      = ps.map some := by
  have hq : (enqueueAll (Switch.init switch_id cap) ps).queue = ps := by
    have h2 := enqueueAll_queue ps (Switch.init switch_id cap)
      (by simpa [Switch.init] using h)
    simpa [Switch.init] using h2
  rw [processN_outputs ps.length _ (by rw [hq]), hq, List.take_length]

/-- Witness for C2's amended theorem at a concrete input. -/
theorem fifo_order_witness :
    (processN (enqueueAll (Switch.init 1 2) [samplePacket 0, samplePacket 1]) 2).2
      = [some (samplePacket 0), some (samplePacket 1)] :=
  fifo_order 1 2 [samplePacket 0, samplePacket 1] (by decide)

/-- C3: `enqueue_packet` accepts iff `len(queue) < max_queue_size` at the
moment of the call, appending to the queue tail in that case and leaving the
drop counter alone; otherwise it reports the packet dropped and increments the
dropped counter.  The final conjunct is Scenario A: capacity 1, two admits
back-to-back — first accepted, second dropped, dropped count 1. -/
theorem admission_spec (s : Switch) (p : Packet) :
    ((enqueue_packet s p).2.2 = AdmissionResult.accepted ↔
        s.queue.length < s.max_queue_size)
    ∧ (s.queue.length < s.max_queue_size →
        (enqueue_packet s p).1.queue = s.queue ++ [p]
          ∧ (enqueue_packet s p).1.dropped_packets = s.dropped_packets)
    ∧ (¬ s.queue.length < s.max_queue_size →
        (enqueue_packet s p).2.2 = AdmissionResult.dropped
          ∧ (enqueue_packet s p).1.dropped_packets = s.dropped_packets + 1)
    ∧ ((enqueue_packet (Switch.init 1 1) (samplePacket 0)).2.2
          = AdmissionResult.accepted
        ∧ (enqueue_packet (enqueue_packet (Switch.init 1 1) (samplePacket 0)).1
            (samplePacket 1)).2.2 = AdmissionResult.dropped
        ∧ (enqueue_packet (enqueue_packet (Switch.init 1 1) (samplePacket 0)).1
            (samplePacket 1)).1.dropped_packets = 1) := by
  refine ⟨?_, ?_, ?_, by decide⟩
  · by_cases hlt : s.queue.length < s.max_queue_size <;>
      simp [enqueue_packet, hlt]
  · intro hlt
    simp [enqueue_packet, hlt]
  · intro hge
    simp [enqueue_packet, hge]

/-- Witness for C3 at a concrete input. -/
theorem admission_spec_witness :
    (enqueue_packet (Switch.init 2 1) (samplePacket 3)).2.2
      = AdmissionResult.accepted :=
  (admission_spec (Switch.init 2 1) (samplePacket 3)).1.mpr (by decide)

/-- C4: along any call sequence the dropped counter is non-decreasing (its
value after any shorter prefix is at most its value after any longer one); an
`enqueue_packet` call made when the queue is full increments it by exactly 1,
and every other call — an accepted `enqueue_packet` or any `process_packet` —
leaves it unchanged. -/
theorem drop_counter_evolution (s : Switch) (p : Packet) (ops : List Op)
    (m n : Nat) (hmn : m ≤ n) :
    (runOps s (ops.take m)).dropped_packets
        ≤ (runOps s (ops.take n)).dropped_packets
    ∧ (stepOp s (Op.enq p)).dropped_packets =
        (if s.queue.length < s.max_queue_size then s.dropped_packets
         else s.dropped_packets + 1)
    ∧ (stepOp s Op.proc).dropped_packets = s.dropped_packets := by
  refine ⟨?_, ?_, ?_⟩
  · have key : runOps s (ops.take n)
        = runOps (runOps s (ops.take m)) ((ops.take n).drop m) := by
      conv_lhs => rw [← List.take_append_drop m (ops.take n)]
      rw [runOps_append, List.take_take, Nat.min_eq_left hmn]
    rw [key]
    exact runOps_dropped_le _ _
  · dsimp only [stepOp, enqueue_packet]
    split <;> rfl
  · rw [stepOp, process_packet_eq]

/-- Witness for C4 at concrete inputs. -/
theorem drop_counter_evolution_witness :
    (runOps (Switch.init 1 1)
        ([Op.enq (samplePacket 0), Op.enq (samplePacket 1)].take 1)).dropped_packets
      ≤ (runOps (Switch.init 1 1)
        ([Op.enq (samplePacket 0), Op.enq (samplePacket 1)].take 2)).dropped_packets
    ∧ (stepOp (Switch.init 1 1) (Op.enq (samplePacket 2))).dropped_packets =
        (if (Switch.init 1 1).queue.length < (Switch.init 1 1).max_queue_size
         then (Switch.init 1 1).dropped_packets
         else (Switch.init 1 1).dropped_packets + 1)
    ∧ (stepOp (Switch.init 1 1) Op.proc).dropped_packets
        = (Switch.init 1 1).dropped_packets :=
  drop_counter_evolution (Switch.init 1 1) (samplePacket 2)
    [Op.enq (samplePacket 0), Op.enq (samplePacket 1)] 1 2 (by decide)

/-- C5 (counterexample to the claim as stated): a run consisting of one
generation event and nothing else generates 1 packet, but delivers 0 and drops
0 — the packet is still sitting in the queue when the run ends, so
generated ≠ delivered + dropped. -/
theorem conservation_counterexample :
    (runSim [SimEv.gen 1 0 100 true]).generated = 1
    ∧ (runSim [SimEv.gen 1 0 100 true]).delivered
        + ((runSim [SimEv.gen 1 0 100 true]).sw1.dropped_packets
            + (runSim [SimEv.gen 1 0 100 true]).sw2.dropped_packets) = 0 := by
  decide

/-- C5 (amended): for every finite run, the total number of packets generated
equals the total delivered (serviced) plus the total dropped across both
switches plus the packets still queued at the two switches when the run
ends. -/
theorem conservation (evs : List SimEv) :
    (runSim evs).generated
      = (runSim evs).delivered
          + ((runSim evs).sw1.dropped_packets + (runSim evs).sw2.dropped_packets)
          + ((runSim evs).sw1.queue.length + (runSim evs).sw2.queue.length) :=
  foldl_simStep_balanced evs Sim.init rfl

/-- C6: on an empty queue, any number of repeated `process_packet` calls
return `None` each time without an error and leave the switch — queue and
dropped counter included — unchanged; in general one `process_packet` call
removes and returns the head packet when the queue is non-empty and returns
`None` otherwise. -/
theorem service_on_empty (s : Switch) (n : Nat) :
    (s.queue = [] → processN s n = (s, List.replicate n none))
    ∧ process_packet s = ({ s with queue := s.queue.tail }, s.queue.head?) := by
  obtain ⟨i, c, q, d⟩ := s
  constructor
  · intro h
    dsimp only at h
    subst h
    induction n with
    | zero => rfl
    | succ k ih =>
      rw [processN_succ]
      dsimp only [process_packet]
      rw [ih]
      rfl
  · exact process_packet_eq ⟨i, c, q, d⟩

/-- Witness for C6: three consecutive services of an empty capacity-5 switch
all return `None` and leave the state untouched. -/
theorem service_on_empty_witness :
    processN (Switch.init 1 5) 3 = (Switch.init 1 5, [none, none, none]) :=
  (service_on_empty (Switch.init 1 5) 3).1 rfl

/-- C7 (the identifier clash the code exhibits): `generate_packet` builds the
identifier from `int(env.now)`, so two distinct packets generated by the same
node at distinct times 0.05 and 0.09 — as happens routinely with
inter-generation delays drawn from [0.01, 0.1] — receive the identical
identifier "Node1_Packet0". -/
theorem packet_id_not_unique :
    (generate_packet 1 (1/20) 100 1).packet_id
        = (generate_packet 1 (9/100) 200 2).packet_id
    ∧ generate_packet 1 (1/20) 100 1 ≠ generate_packet 1 (9/100) 200 2
    ∧ (1/20 : ℚ) ≠ (9/100 : ℚ)
    ∧ (generate_packet 1 (1/20) 100 1).packet_id = "Node1_Packet0" := by
  have h1 : Rat.floor (1/20 : ℚ) = 0 := by
    rw [ratFloor_eq_intFloor, Int.floor_eq_zero_iff, Set.mem_Ico]
    norm_num
  have h2 : Rat.floor (9/100 : ℚ) = 0 := by
    rw [ratFloor_eq_intFloor, Int.floor_eq_zero_iff, Set.mem_Ico]
    norm_num
  refine ⟨?_, ?_, by norm_num, ?_⟩
  · rw [generate_packet_id, generate_packet_id, h1, h2]
  · intro hcontra
    have hsize : (100 : Nat) = 200 := congrArg Packet.size hcontra
    norm_num at hsize
  · rw [generate_packet_id, h1]
    rfl

/-- C8 (counterexample to the claim as stated): a run in which one packet is
generated at time 0 and serviced at time 0.2 should, per the claim, put one
latency sample 0.2 into the metrics; the spec-modelled accounting indeed
yields exactly [0.2], but the metrics the code builds contain no latency
samples at all. -/
theorem latency_sample_missing :
    specLatencySamples
        [SimEv.gen 1 0 100 true, SimEv.serve1 (1/5), SimEv.sample (1/5)] = [1/5]
    ∧ (runSim [SimEv.gen 1 0 100 true, SimEv.serve1 (1/5),
        SimEv.sample (1/5)]).metrics.latencySamples = [] := by
  constructor
  · norm_num [specLatencySamples, specLatencyAux, simStep, Sim.init, Switch.init,
      Metrics.init, enqueue_packet, process_packet, generate_packet, monitorStep]
  · rfl

/-- C8 (amended): the metrics collector records no latency samples for any
packet, serviced or dropped; a `monitor` sampling event appends only the
current time, the two queue lengths, and the two cumulative drop counters. -/
theorem metrics_record_no_latency (evs : List SimEv) (now : ℚ) :
    (runSim evs).metrics.latencySamples = []
    ∧ (runSim (evs ++ [SimEv.sample now])).metrics
        = monitorStep now (runSim evs).sw1 (runSim evs).sw2 (runSim evs).metrics := by
  refine ⟨rfl, ?_⟩
  rw [runSim_snoc]
  rfl

/-- C9 (counterexample to the claim as stated): constructing a switch with the
invalid capacity 0 succeeds — `Switch.__init__` performs no validation and
raises no `InvalidConfiguration` — whereas the spec-modelled checked
constructor rejects that configuration. -/
theorem invalid_config_accepted :
    (Switch.tryInit 1 0).toOption = some (Switch.init 1 0)
    ∧ (Switch.tryInitChecked 1 0).toOption = none :=
  ⟨rfl, rfl⟩

/-- C9 (amended): construction performs no configuration validation: every
capacity, valid or not, yields a fully initialized switch — empty queue, zero
dropped counter, the given capacity — and construction never fails. -/
theorem construction_unvalidated (switch_id cap : Nat) :
    Switch.tryInit switch_id cap = Except.ok (Switch.init switch_id cap)
    ∧ (Switch.init switch_id cap).queue = []
    ∧ (Switch.init switch_id cap).dropped_packets = 0
    ∧ (Switch.init switch_id cap).max_queue_size = cap :=
  ⟨rfl, rfl, rfl, rfl⟩

/-- C10: an `enqueue_packet` call against a full switch (`len(queue) ==
max_queue_size`) leaves the queued packet sequence, the identifier and the
capacity exactly unchanged; only the dropped counter (plus one) and the
rejected packet's colour tag (set to `DROPPED_PACKET_COLOR`) change. -/
theorem full_reject_frame (s : Switch) (p : Packet)
    (h : s.queue.length = s.max_queue_size) :
    (enqueue_packet s p).1.queue = s.queue
    ∧ (enqueue_packet s p).1.dropped_packets = s.dropped_packets + 1
    ∧ (enqueue_packet s p).1.switch_id = s.switch_id
    ∧ (enqueue_packet s p).1.max_queue_size = s.max_queue_size
    ∧ (enqueue_packet s p).2.1 = { p with color := DROPPED_PACKET_COLOR } := by
  have hnlt : ¬ s.queue.length < s.max_queue_size := by omega
  refine ⟨?_, ?_, ?_, ?_, ?_⟩ <;> simp [enqueue_packet, hnlt]

/-- Witness for C10 at a concrete full switch (capacity 1, one packet
queued). -/
theorem full_reject_frame_witness :
    (enqueue_packet (enqueue_packet (Switch.init 1 1) (samplePacket 0)).1
        (samplePacket 1)).1.queue
      = (enqueue_packet (Switch.init 1 1) (samplePacket 0)).1.queue
    ∧ (enqueue_packet (enqueue_packet (Switch.init 1 1) (samplePacket 0)).1
        (samplePacket 1)).1.dropped_packets
      = (enqueue_packet (Switch.init 1 1) (samplePacket 0)).1.dropped_packets + 1
    ∧ (enqueue_packet (enqueue_packet (Switch.init 1 1) (samplePacket 0)).1
        (samplePacket 1)).1.switch_id
      = (enqueue_packet (Switch.init 1 1) (samplePacket 0)).1.switch_id
    ∧ (enqueue_packet (enqueue_packet (Switch.init 1 1) (samplePacket 0)).1
        (samplePacket 1)).1.max_queue_size
      = (enqueue_packet (Switch.init 1 1) (samplePacket 0)).1.max_queue_size
    ∧ (enqueue_packet (enqueue_packet (Switch.init 1 1) (samplePacket 0)).1
        (samplePacket 1)).2.1
      = { samplePacket 1 with color := DROPPED_PACKET_COLOR } :=
  full_reject_frame ((enqueue_packet (Switch.init 1 1) (samplePacket 0)).1)
    (samplePacket 1) (by decide)

end Fifo
